import Mathlib

/- Shallow embedding of `src/branches/v0.6/javascript/zen_actions.js` (zen-coding,
   v0.6 branch): the edit-point scanner (`findNewEditPoint`), the tag-pair
   navigator (`matchPair`), the comment toggle (`toggleComment` /
   `toggleHTMLComment`), line merging (`mergeLines`) and the action
   registration table.  The document is a `List Char`; JavaScript string
   primitives (`charAt`, `substring`, regex replaces) are embedded explicitly.
   External collaborators that live outside `src/` (the HTML pair matcher and
   the `zen_coding` utility object) are modelled from the spec where needed. -/

/-- The JavaScript `\s` character class, restricted to the ASCII whitespace
characters that can occur in the documents this engine manipulates:
space, tab, line feed, carriage return, vertical tab and form feed. -/
def jsSpace (c : Char) : Bool :=
  c = ' ' ∨ c = '\t' ∨ c = '\n' ∨ c = '\r' ∨ c = Char.ofNat 11 ∨ c = Char.ofNat 12

/-- The double-quote character (written via its code point to keep the
source free of quote-in-quote literals). -/
def dquote : Char := Char.ofNat 34

/-- The single-quote character. -/
def squote : Char := Char.ofNat 39

/-- JavaScript `content.charAt(i)`: the character at offset `i`, or `none`
when `i` is out of range (JavaScript returns the empty string there, which
compares unequal to every one-character string). -/
def jsCharAt (content : List Char) (i : Int) : Option Char :=
  if 0 ≤ i then content[i.toNat]? else none

/-- JavaScript `content.substring(a, b)` for already-in-range natural
offsets: the characters of the half-open range `[a, b)`. -/
def jsSubstringN (content : List Char) (a b : Nat) : List Char :=
  (content.drop a).take (b - a)

/-- `getLine`'s inner scan in `findNewEditPoint` (zen_actions.js:234-244):
walk `start` downward from `i` until a line terminator is found, returning
its index; `none` when the scan falls off the left edge of the document. -/
def lineBreakBefore (content : List Char) : Nat → Option Nat
  | 0 =>
    if jsCharAt content 0 = some '\n' ∨ jsCharAt content 0 = some '\r' then some 0 else none
  | j + 1 =>
    if jsCharAt content (j + 1) = some '\n' ∨ jsCharAt content (j + 1) = some '\r' then
      some (j + 1)
    else lineBreakBefore content j

/-- `getLine(ix)` from `findNewEditPoint` (zen_actions.js:234-244): the text
`content.substring(start, ix)` where `start` is the index of the line
terminator preceding `ix` (included in the result, as in the source), or the
document start when there is none.  A negative `ix` yields the empty string
(JavaScript `substring` clamps). -/
def getLine (content : List Char) (ix : Int) : List Char :=
  if ix < 0 then []
  else
    match lineBreakBefore content ix.toNat with
    | some s => jsSubstringN content s ix.toNat
    | none => jsSubstringN content 0 ix.toNat

/-- The test `/^\s+$/.test(line)`: the line is non-empty and consists solely
of whitespace. -/
def isEmptyLine (l : List Char) : Bool :=
  !l.isEmpty && l.all jsSpace

/-- The body of the `switch` statement in `findNewEditPoint`
(zen_actions.js:252-273): classify the character at `cp` and return the
candidate edit point, or `-1` when the character is not interesting.  The
three classes are an empty attribute (`="` or `='` followed by the same
quote), an inter-tag position (`><`), and a line terminator whose preceding
line is all whitespace. -/
def editPointCandidate (content : List Char) (cp : Int) : Int :=
  match jsCharAt content cp with
  | some c =>
    if c = dquote ∨ c = squote then
      if jsCharAt content (cp + 1) = some c ∧ jsCharAt content (cp - 1) = some '=' then cp + 1
      else -1
    else if c = '>' then
      if jsCharAt content (cp + 1) = some '<' then cp + 1 else -1
    else if c = '\n' ∨ c = '\r' then
      if isEmptyLine (getLine content (cp - 1)) then cp else -1
    else -1
  | none => -1

/-- The `while (cur_point < max_len && cur_point > 0)` loop of
`findNewEditPoint` (zen_actions.js:246-277), with explicit fuel.  Each
iteration first advances the scan position by `inc` and then classifies the
character there; the first classified position is returned, and `-1` when
the scan leaves the document.  Since every iteration moves the position by
the non-zero `inc` inside the window `(0, content.length)`, the loop runs at
most `content.length` iterations, so fuel `content.length + 1` makes the
fueled loop agree with the unbounded source loop. -/
def editPointLoop (content : List Char) (inc : Int) : Nat → Int → Int
  | 0, _ => -1
  | fuel + 1, cur =>
    if cur < (content.length : Int) ∧ 0 < cur then
      if editPointCandidate content (cur + inc) ≠ -1 then editPointCandidate content (cur + inc)
      else editPointLoop content inc fuel (cur + inc)
    else -1

/-- `findNewEditPoint(editor, inc, offset)` (zen_actions.js:221-280): search
from `caretPos + offset` in direction `inc` (`inc = 0` is normalised to `1`
by `inc = inc || 1` in the source) for the next edit point; `-1` when none
is found. -/
def findNewEditPoint (content : List Char) (caretPos : Nat) (inc offset : Int) : Int :=
  editPointLoop content (if inc = 0 then 1 else inc) (content.length + 1)
    ((caretPos : Int) + offset)

/-- Editor state as seen through the collaborator interface of the spec
(section 6): document text, selection, caret and syntax name.  `caret` is an
`Int` because the engine's arithmetic can push it below zero; clamping is
the editor's concern. -/
structure EditorState where
  content : List Char
  selStart : Nat
  selEnd : Nat
  caret : Int
  lang : String
deriving DecidableEq, Repr

/-- Tag metadata produced by the external pair matcher: start and end
offsets of one opening or closing tag occurrence. -/
structure TagInfo where
  tstart : Nat
  tend : Nat
deriving DecidableEq, Repr

/-- Modelled from the spec: `HTMLPairMatcher.getTags(content, pos)` of the
external tag matcher (html_matcher.js is not part of this source tree);
section 6 gives its contract as `getTags(document, offset) ->
[TagInfo|null, TagInfo|null]`.  Kept abstract as a function parameter. -/
def GetTags : Type := List Char → Int → Option TagInfo × Option TagInfo

/-- A pair-matcher stub that never finds a tag, used to drive scenarios in
which the selection is already non-empty (the matcher is then never
consulted). -/
def gtNone : GetTags := fun _ _ => (none, none)

/-- Modelled from the spec: first stage of `zen_coding.splitByLines`
(section 4.4: "splits `text` into lines on any newline convention");
zen_coding.js is not part of this source tree.  Rewrites the `\r\n` and
`\r` conventions to plain `\n`. -/
def normNewlines : List Char → List Char
  | [] => []
  | c :: [] => (if c = '\r' then '\n' else c) :: []
  | c :: d :: rest =>
    if c = '\r' then
      if d = '\n' then '\n' :: normNewlines rest
      else '\n' :: normNewlines (d :: rest)
    else c :: normNewlines (d :: rest)

/-- Split on the single (already normalised) terminator `\n`, keeping the
terminators out of the lines. -/
def splitLinesSimple : List Char → List (List Char)
  | [] => [[]]
  | c :: rest =>
    if c = '\n' then [] :: splitLinesSimple rest
    else
      match splitLinesSimple rest with
      | l :: ls => (c :: l) :: ls
      | [] => [[c]]

/-- Modelled from the spec: `zen_coding.splitByLines` (section 4.4), the
composition of newline normalisation and the simple splitter, so that the
`\r\n`, `\r` and `\n` conventions all delimit lines. -/
def splitByLines (text : List Char) : List (List Char) :=
  splitLinesSimple (normNewlines text)

/-- Is the character a line terminator. -/
def isNewlineChar (c : Char) : Bool := c = '\n' ∨ c = '\r'

/-- Modelled from the spec: `editor.getCurrentLine()` (section 6) - the text
of the line containing the caret (clamped into the document). -/
def currentLine (content : List Char) (caret : Int) : List Char :=
  let c := min (max caret 0).toNat content.length
  ((content.take c).reverse.takeWhile fun ch => !isNewlineChar ch).reverse ++
    ((content.drop c).takeWhile fun ch => !isNewlineChar ch)

/-- `getCurrentLinePadding(editor)` (zen_actions.js:210-212): the leading
whitespace run of the current line (`/^(\s+)/` match, or empty). -/
def currentLinePadding (content : List Char) (caret : Int) : List Char :=
  (currentLine content caret).takeWhile jsSpace

/-- Modelled from the spec: `zen_coding.getNewline()` (section 6); the
configured newline string, taken to be `"\n"`. -/
def newlineStr : List Char := '\n' :: []

/-- `unindent(editor, text)` (zen_actions.js:194-203): split `text` into
lines, strip the current line's padding from every line that starts with it
(`line.search(pad) == 0`; `pad` is a whitespace run, so the regex search is
exactly a starts-with test, and the empty pad strips nothing), and rejoin
with the configured newline. -/
def unindent (pad : List Char) (text : List Char) : List Char :=
  List.intercalate newlineStr
    ((splitByLines text).map fun l => if pad.isPrefixOf l then l.drop pad.length else l)

/-- Does the string start with the comment-open marker `<!--`: the shape
test behind `hasMatch('<!--', pos)` and the `^<!--` head of the removal
regex. -/
def startsWithOpen : List Char → Bool
  | '<' :: '!' :: '-' :: '-' :: _ => true
  | _ => false

/-- Does the string start with the comment-close marker `-->`. -/
def startsWithClose : List Char → Bool
  | '-' :: '-' :: '>' :: _ => true
  | _ => false

/-- Does the reversed string start with the reversed comment-close marker,
i.e. does the string end with `-->`: the anchor of `/\s*-->$/`. -/
def revStartsWithClose : List Char → Bool
  | '>' :: '-' :: '-' :: _ => true
  | _ => false

/-- The first replace of `removeComment(str)` inside `toggleHTMLComment`
(zen_actions.js:435-441): strip a leading `<!--` plus the following
whitespace run, recording the removed length. -/
def removeOpenStep (s : List Char) : List Char × Nat :=
  if startsWithOpen s then
    ((s.drop 4).dropWhile jsSpace, 4 + ((s.drop 4).takeWhile jsSpace).length)
  else (s, 0)

/-- The second replace of `removeComment`: `.replace(/\s*-->$/, '')`. -/
def removeCloseStep (s : List Char) : List Char :=
  if revStartsWithClose s.reverse then ((s.reverse.drop 3).dropWhile jsSpace).reverse
  else s

/-- The composition of the two replaces; the second component is the length
of the removed leading marker, by which the caret shifts left. -/
def removeCommentText (s : List Char) : List Char × Nat :=
  (removeCloseStep (removeOpenStep s).1, (removeOpenStep s).2)

/-- The global regex replace `str.replace(/<!--\s+|\s+-->/g, '')` used on
the insertion path (zen_actions.js:500), with explicit fuel: at each
position either the first alternative matches (`<!--` followed by at least
one whitespace character, all deleted), or the second matches (a whitespace
run immediately followed by `-->`, all deleted: the greedy `\s+` can only
end where the literal `-->` starts), or the scan emits the character and
advances by one, exactly as the regex engine retries at the next position.
Every step consumes at least one character, so fuel `s.length` suffices. -/
def stripGo : Nat → List Char → List Char
  | 0, s => s
  | _ + 1, [] => []
  | fuel + 1, '<' :: '!' :: '-' :: '-' :: r =>
    if (r.takeWhile jsSpace).length ≠ 0 then stripGo fuel (r.dropWhile jsSpace)
    else '<' :: stripGo fuel ('!' :: '-' :: '-' :: r)
  | fuel + 1, c :: rest =>
    if jsSpace c then
      if startsWithClose ((c :: rest).dropWhile jsSpace) then
        stripGo fuel (((c :: rest).dropWhile jsSpace).drop 3)
      else c :: stripGo fuel rest
    else c :: stripGo fuel rest

/-- `str.replace(/<!--\s+|\s+-->/g, '')`: the marker-stripping pass run on
the selection before wrapping it in comment markers. -/
def stripCommentMarkers (s : List Char) : List Char := stripGo s.length s

/-- The opening wrap text `"<!-- "`. -/
def wrapOpen : List Char := '<' :: '!' :: '-' :: '-' :: ' ' :: []

/-- The closing wrap text `" -->"`. -/
def wrapClose : List Char := ' ' :: '-' :: '-' :: '>' :: []

/-- The insertion-branch content (zen_actions.js:499-501): the selected
text, markers stripped, wrapped in `<!-- ` and ` -->`. -/
def wrapComment (s : List Char) : List Char :=
  wrapOpen ++ stripCommentMarkers s ++ wrapClose

/-- The backward scan of `toggleHTMLComment` (zen_actions.js:470-475),
checking indices `j, j-1, ..., 0` for a `<` that opens `<!--`. -/
def commentScanBack (content : List Char) : Nat → Int
  | 0 =>
    if jsCharAt content 0 = some '<' ∧ startsWithOpen content then 0 else -1
  | j + 1 =>
    if jsCharAt content ((j : Int) + 1) = some '<' ∧ startsWithOpen (content.drop (j + 1)) then
      (j : Int) + 1
    else commentScanBack content j

/-- `comment_start`: `var from = rng.start; while (from--) {...}` checks
indices `rng.start - 1` down to `0`; `-1` when no comment-open marker is
found. -/
def findCommentStart (content : List Char) (rs : Nat) : Int :=
  match rs with
  | 0 => -1
  | k + 1 => commentScanBack content k

/-- The forward scan of `toggleHTMLComment` (zen_actions.js:479-487),
checking indices `j, j+1, ...` for a `-` that opens `-->`, with fuel.  The
source loop stops after index `content.length`; the fueled scan can only
keep going at indices past the document end, where the test always fails,
so fuel `content.length + 1` yields the same result. -/
def commentScanFwd (content : List Char) : Nat → Nat → Int
  | 0, _ => -1
  | fuel + 1, j =>
    if jsCharAt content (j : Int) = some '-' ∧ startsWithClose (content.drop j) then (j : Int) + 3
    else commentScanFwd content fuel (j + 1)

/-- `comment_end`: scan forward from `comment_start + 1`; on success the
result is the offset one past the `-->` marker, else `-1`. -/
def findCommentEnd (content : List Char) (cs : Nat) : Int :=
  commentScanFwd content (content.length + 1) (cs + 1)

/-- The `comment_end` value as the source leaves it: `-1` when there is no
comment start at all (the forward search then never runs). -/
def findCommentEndOf (content : List Char) (rs : Nat) : Int :=
  if findCommentStart content rs ≠ -1 then
    findCommentEnd content (findCommentStart content rs).toNat
  else -1

/-- The body of `toggleHTMLComment` for a non-empty range
(zen_actions.js:456-506): choose between removal (range starts with
`<!--`), widened removal (an enclosing comment strictly contains the
range), and insertion; return the replacement text, the possibly widened
range, and the new caret position. -/
def resolveToggle (content : List Char) (rs re : Nat) (caret : Int) :
    List Char × Nat × Nat × Int :=
  if startsWithOpen (content.drop rs) then
    let p := removeCommentText (jsSubstringN content rs re)
    (p.1, rs, re, caret - (p.2 : Int))
  else
    if findCommentStart content rs < (rs : Int) ∧ (re : Int) < findCommentEndOf content rs then
      let cs := (findCommentStart content rs).toNat
      let ce := (findCommentEndOf content rs).toNat
      let p := removeCommentText (jsSubstringN content cs ce)
      (p.1, cs, ce, caret - (p.2 : Int))
    else
      (wrapComment (jsSubstringN content rs re), rs, re, caret + 5)

/-- `toggleHTMLComment(editor)` (zen_actions.js:424-518): derive a range
from the selection (or from the tag pair at the caret when the selection is
empty), resolve the toggle, unindent the replacement against the current
line's padding (the source moves the caret to the range start immediately
before calling `unindent`, so the padding is read there), replace the range
and set the caret to the adjusted position. -/
def toggleHTMLComment (gt : GetTags) (st : EditorState) : EditorState × Bool :=
  let content := st.content
  let rng : Nat × Nat :=
    if st.selStart = st.selEnd then
      match gt content st.caret with
      | (some t0, oc) =>
        (t0.tstart, match oc with | some t1 => t1.tend | none => t0.tend)
      | (none, _) => (st.selStart, st.selEnd)
    else (st.selStart, st.selEnd)
  if rng.1 ≠ rng.2 then
    let r := resolveToggle content rng.1 rng.2 st.caret
    let newText := unindent (currentLinePadding content (r.2.1 : Int)) r.1
    ({ st with
        content := (content.take r.2.1) ++ newText ++ content.drop r.2.2.1,
        caret := r.2.2.2 }, true)
  else (st, false)

/-- `toggleComment(editor)` (zen_actions.js:410-417): dispatch on the
editor's syntax; only `html`, `xml` and `xhtml` reach `toggleHTMLComment`,
every other syntax falls through the `switch` leaving the editor untouched
(the source returns `undefined`, modelled as `false`). -/
def toggleComment (gt : GetTags) (st : EditorState) : EditorState × Bool :=
  if st.lang = ("html" : String) ∨ st.lang = ("xml" : String) ∨ st.lang = ("xhtml" : String) then
    toggleHTMLComment gt st
  else (st, false)

/-- JavaScript-style trim with the engine's whitespace class: drop leading
and trailing whitespace. -/
def jsTrim (l : List Char) : List Char :=
  ((l.dropWhile jsSpace).reverse.dropWhile jsSpace).reverse

/-- The non-global regex replace `text.replace(/\s{2,}/, ' ')` of
`mergeLines` (zen_actions.js:400): find the first position where two
whitespace characters are adjacent, replace the maximal whitespace run
starting there by a single space, and leave the remainder untouched. -/
def collapseFirst : List Char → List Char
  | [] => []
  | [c] => [c]
  | a :: b :: rest =>
    if jsSpace a ∧ jsSpace b then ' ' :: rest.dropWhile jsSpace
    else a :: collapseFirst (b :: rest)

/-- The text transform of `mergeLines` (zen_actions.js:392-400): split the
selected text into lines, strip the leading whitespace of every line after
the first, join with no separator, then apply the one-shot whitespace
collapse. -/
def mergeLinesText (text : List Char) : List Char :=
  collapseFirst
    (match splitByLines text with
     | [] => []
     | l0 :: ls => (l0 :: ls.map fun l => l.dropWhile jsSpace).flatten)

/-- `mergeLines(editor)` (zen_actions.js:379-404): when the selection is
empty, substitute the tag-pair range at the caret (`run` models the
external `HTMLPairMatcher`); on a non-empty range, replace it by the merged
text and select the result. -/
def mergeLines (run : List Char → Int → Option (Nat × Nat)) (st : EditorState) : EditorState :=
  let sel : Nat × Nat :=
    if st.selStart = st.selEnd then
      match run st.content st.caret with
      | some p => p
      | none => (st.selStart, st.selEnd)
    else (st.selStart, st.selEnd)
  if sel.1 ≠ sel.2 then
    let t2 := mergeLinesText (jsSubstringN st.content sel.1 sel.2)
    { st with
        content := (st.content.take sel.1) ++ t2 ++ st.content.drop sel.2,
        selStart := sel.1,
        selEnd := sel.1 + t2.length }
  else st

/-- The `HTMLPairMatcher.last_match` cache read by `matchPair`: the opening
and closing tag of the most recent successful match (`closing` is `none`
for unary tags). -/
structure LastMatch where
  opening : Option TagInfo
  closing : Option TagInfo
deriving DecidableEq, Repr

/-- Modelled from the spec: the external tag matcher (section 6):
`match(document, offset) -> Range | NOT_FOUND` (`run`, the callable
`HTMLPairMatcher(content, pos)`), plus the probing entry
`HTMLPairMatcher.find(content, pos)` used by the inward logic, which
returns a raw index pair (`-1`s on failure). -/
structure Matcher where
  run : List Char → Int → Option (Nat × Nat)
  find : List Char → Int → Int × Int

/-- JavaScript `haystack.indexOf(c, start)` scan with fuel. -/
def indexOfAux (l : List Char) (c : Char) : Nat → Nat → Int
  | 0, _ => -1
  | fuel + 1, j =>
    if j < l.length then
      if l[j]? = some c then (j : Int) else indexOfAux l c fuel (j + 1)
    else -1

/-- JavaScript `haystack.indexOf(c, start)`: first index `>= start` holding
`c`, else `-1`. -/
def jsIndexOf (l : List Char) (c : Char) (start : Nat) : Int :=
  indexOfAux l c (l.length + 1) start

/-- JavaScript `s.toLowerCase()` restricted to the ASCII action names this
engine compares (character-wise lowering; `String.toLower` itself is
avoided because its byte-position recursion does not reduce in the
kernel). -/
def jsToLower (s : String) : String := String.mk (s.data.map Char.toLower)

/-- `matchPair(editor, direction)` (zen_actions.js:77-124): directional
tag-pair selection.  `m` is the external matcher, `lm` the cached
`HTMLPairMatcher.last_match` of the previous successful match.  Returns the
new editor state (selection updated on success) and the success flag; the
unary early `return false` and the shared `range == null` exit coincide
observably and are both modelled as an empty range. -/
def matchPair (m : Matcher) (lm : LastMatch) (dirRaw : String) (st : EditorState) :
    EditorState × Bool :=
  let dir := if dirRaw = ("" : String) then ("out" : String) else jsToLower dirRaw
  let content := st.content
  let cursor : Int := (st.selEnd : Int)
  let range : Option (Nat × Nat) :=
    if dir = ("in" : String) ∧ lm.opening.isSome ∧ st.selStart ≠ st.selEnd then
      match lm.opening, lm.closing with
      | some _, none => none
      | some ot, some ct =>
        if ot.tstart = st.selStart then
          if jsCharAt content (ot.tend : Int) = some '<' then
            let r := m.find content ((ot.tend : Int) + 1)
            if r.1 = (ot.tend : Int) ∧ r.2 = (ct.tstart : Int) then
              m.run content ((ot.tend : Int) + 1)
            else some (ot.tend, ct.tstart)
          else some (ot.tend, ct.tstart)
        else
          let newCursor := jsIndexOf (content.take ct.tstart) '<' ot.tend
          m.run content (if newCursor ≠ -1 then newCursor + 1 else (ot.tend : Int))
      | none, _ => m.run content cursor
    else m.run content cursor
  match range with
  | some (a, b) => ({ st with selStart := a, selEnd := b }, true)
  | none => (st, false)

/-- Does the string contain two adjacent whitespace characters (the
condition for `/\s{2,}/` to match somewhere in it). -/
def hasWsPair : List Char → Bool
  | a :: b :: rest => (jsSpace a && jsSpace b) || hasWsPair (b :: rest)
  | _ => false

/-- Is the last character absent or non-whitespace. -/
def lastNotWs : List Char → Bool
  | [] => true
  | c :: [] => !jsSpace c
  | _ :: b :: rest => lastNotWs (b :: rest)

/-- Is the first character absent or non-whitespace. -/
def headNotWs : List Char → Bool
  | [] => true
  | c :: _ => !jsSpace c

/-- The functions passed to `zen_coding.registerAction`
(zen_actions.js:521-530), as tags naming the like-named source
functions. -/
inductive ActionTag
  | expandAbbreviation
  | expandAbbreviationWithTab
  | matchPair
  | wrapWithAbbreviation
  | prevEditPoint
  | nextEditPoint
  | insertFormattedNewline
  | selectLine
  | goToMatchingPair
  | mergeLines
  | toggleComment
deriving DecidableEq, Repr

/-- The registration table built by the `zen_coding.registerAction` calls
at the bottom of the file (zen_actions.js:521-530).  The last source line
is `zen_coding.registerAction('mergeLines', toggleComment)`. -/
def registeredActions : List (String × ActionTag) :=
  [(("expandAbbreviation"), ActionTag.expandAbbreviation),
   (("expandAbbreviationWithTab"), ActionTag.expandAbbreviationWithTab),
   (("matchPair"), ActionTag.matchPair),
   (("wrapWithAbbreviation"), ActionTag.wrapWithAbbreviation),
   (("prevEditPoint"), ActionTag.prevEditPoint),
   (("nextEditPoint"), ActionTag.nextEditPoint),
   (("insertFormattedNewline"), ActionTag.insertFormattedNewline),
   (("selectLine"), ActionTag.selectLine),
   (("goToMatchingPair"), ActionTag.goToMatchingPair),
   (("mergeLines"), ActionTag.toggleComment)]

theorem jsCharAt_eq_some_bounds {content : List Char} {i : Int} {c : Char}
    (h : jsCharAt content i = some c) : 0 ≤ i ∧ i < (content.length : Int) := by
  unfold jsCharAt at h
  split at h
  · next h0 =>
    rcases List.getElem?_eq_some.mp h with ⟨hlt, _⟩
    exact ⟨h0, (Int.toNat_lt h0).mp hlt⟩
  · exact absurd h (by simp)

theorem editPointCandidate_cases (content : List Char) (cp : Int) :
    editPointCandidate content cp = -1 ∨
    ((∃ c, jsCharAt content cp = some c) ∧ editPointCandidate content cp = cp) ∨
    ((∃ c, jsCharAt content (cp + 1) = some c) ∧ editPointCandidate content cp = cp + 1) := by
  unfold editPointCandidate
  cases hc : jsCharAt content cp with
  | none => exact Or.inl rfl
  | some c =>
    dsimp only
    by_cases h1 : c = dquote ∨ c = squote
    · rw [if_pos h1]
      by_cases h2 : jsCharAt content (cp + 1) = some c ∧ jsCharAt content (cp - 1) = some '='
      · rw [if_pos h2]
        exact Or.inr (Or.inr ⟨⟨c, h2.1⟩, rfl⟩)
      · rw [if_neg h2]
        exact Or.inl rfl
    · rw [if_neg h1]
      by_cases h3 : c = '>'
      · rw [if_pos h3]
        by_cases h4 : jsCharAt content (cp + 1) = some '<'
        · rw [if_pos h4]
          exact Or.inr (Or.inr ⟨⟨'<', h4⟩, rfl⟩)
        · rw [if_neg h4]
          exact Or.inl rfl
      · rw [if_neg h3]
        by_cases h5 : c = '\n' ∨ c = '\r'
        · rw [if_pos h5]
          by_cases h6 : isEmptyLine (getLine content (cp - 1)) = true
          · rw [if_pos h6]
            exact Or.inr (Or.inl ⟨⟨c, rfl⟩, rfl⟩)
          · rw [if_neg h6]
            exact Or.inl rfl
        · rw [if_neg h5]
          exact Or.inl rfl

theorem editPointCandidate_bounds {content : List Char} {cp : Int}
    (h : editPointCandidate content cp ≠ -1) :
    0 ≤ editPointCandidate content cp ∧
      editPointCandidate content cp < (content.length : Int) := by
  rcases editPointCandidate_cases content cp with h0 | ⟨⟨c, hc⟩, he⟩ | ⟨⟨c, hc⟩, he⟩
  · exact absurd h0 h
  · rw [he]; exact jsCharAt_eq_some_bounds hc
  · rw [he]; exact jsCharAt_eq_some_bounds hc

theorem editPointCandidate_ge {content : List Char} {cp : Int}
    (h : editPointCandidate content cp ≠ -1) : cp ≤ editPointCandidate content cp := by
  rcases editPointCandidate_cases content cp with h0 | ⟨_, he⟩ | ⟨_, he⟩
  · exact absurd h0 h
  · rw [he]
  · rw [he]; omega

theorem editPointLoop_bounds (content : List Char) (inc : Int) :
    ∀ fuel : Nat, ∀ cur : Int, editPointLoop content inc fuel cur ≠ -1 →
      0 ≤ editPointLoop content inc fuel cur ∧
        editPointLoop content inc fuel cur < (content.length : Int) := by
  intro fuel
  induction fuel with
  | zero => intro cur h; simp [editPointLoop] at h
  | succ n ih =>
    intro cur h
    rw [editPointLoop] at h ⊢
    by_cases hc : cur < (content.length : Int) ∧ 0 < cur
    · rw [if_pos hc] at h ⊢
      by_cases hnp : editPointCandidate content (cur + inc) ≠ -1
      · rw [if_pos hnp] at h ⊢
        exact editPointCandidate_bounds hnp
      · rw [if_neg hnp] at h ⊢
        exact ih (cur + inc) h
    · rw [if_neg hc] at h
      exact absurd rfl h

theorem editPointLoop_gt (content : List Char) :
    ∀ fuel : Nat, ∀ cur : Int, editPointLoop content 1 fuel cur ≠ -1 →
      cur < editPointLoop content 1 fuel cur := by
  intro fuel
  induction fuel with
  | zero => intro cur h; simp [editPointLoop] at h
  | succ n ih =>
    intro cur h
    rw [editPointLoop] at h ⊢
    by_cases hc : cur < (content.length : Int) ∧ 0 < cur
    · rw [if_pos hc] at h ⊢
      by_cases hnp : editPointCandidate content (cur + 1) ≠ -1
      · rw [if_pos hnp] at h ⊢
        have := editPointCandidate_ge hnp
        omega
      · rw [if_neg hnp] at h ⊢
        have := ih (cur + 1) h
        omega
    · rw [if_neg hc] at h
      exact absurd rfl h

/-- C5: `findNewEditPoint` never returns an offset outside
`[0, content.length]` other than the `-1` sentinel (for any direction and
initial offset), and a forward call (`inc = 1`, `offset = 0`) either returns
`-1` or an offset strictly greater than the caret position it started from,
so that repeated forward calls, each started at the previous result, yield a
strictly increasing sequence of offsets until `-1` is returned. -/
theorem c5_edit_point_bounds_monotone (content : List Char) (caretPos : Nat)
    (inc offset : Int) :
    (findNewEditPoint content caretPos inc offset = -1 ∨
      (0 ≤ findNewEditPoint content caretPos inc offset ∧
        findNewEditPoint content caretPos inc offset ≤ (content.length : Int))) ∧
    (findNewEditPoint content caretPos 1 0 ≠ -1 →
      (caretPos : Int) < findNewEditPoint content caretPos 1 0) := by
  constructor
  · by_cases h : findNewEditPoint content caretPos inc offset = -1
    · exact Or.inl h
    · refine Or.inr ?_
      unfold findNewEditPoint at h ⊢
      obtain ⟨hb1, hb2⟩ := editPointLoop_bounds content (if inc = 0 then 1 else inc)
        (content.length + 1) ((caretPos : Int) + offset) h
      exact ⟨hb1, le_of_lt hb2⟩
  · intro h
    unfold findNewEditPoint at h ⊢
    rw [if_neg (by norm_num : ¬(1 : Int) = 0)] at h ⊢
    have := editPointLoop_gt content (content.length + 1) ((caretPos : Int) + 0) h
    omega

/-- Witness for C5 at a concrete document: on `"ab><c"`, a forward call from
caret 1 lands inside the bounds and strictly beyond the caret. -/
theorem c5_edit_point_bounds_monotone_witness :
    (findNewEditPoint (("ab><c").data) 1 1 0 = -1 ∨
      (0 ≤ findNewEditPoint (("ab><c").data) 1 1 0 ∧
        findNewEditPoint (("ab><c").data) 1 1 0 ≤ ((("ab><c").data).length : Int))) ∧
    (1 : Int) < findNewEditPoint (("ab><c").data) 1 1 0 :=
  ⟨(c5_edit_point_bounds_monotone (("ab><c").data) 1 1 0).1,
    (c5_edit_point_bounds_monotone (("ab><c").data) 1 1 0).2 (by decide)⟩

/-- C9: whenever the starting position `caretPos + offset` is `0`,
`findNewEditPoint` returns the `-1` sentinel for every document and every
direction, because the scan loop requires the current point to be strictly
positive before it ever advances. -/
theorem c9_edit_point_stuck_at_zero (content : List Char) (caretPos : Nat)
    (inc offset : Int) (h : (caretPos : Int) + offset = 0) :
    findNewEditPoint content caretPos inc offset = -1 := by
  unfold findNewEditPoint
  rw [h, editPointLoop]
  simp

/-- Witness for C9: on the document `"><ab"`, which begins with the
inter-tag edit point `"><"`, a forward call starting at position 0 still
returns `-1`, while a backward call started at position 2 does find that
edit point (offset 1), showing a valid edit point was indeed ahead. -/
theorem c9_edit_point_stuck_at_zero_witness :
    findNewEditPoint (("><ab").data) 0 1 0 = -1 ∧
      findNewEditPoint (("><ab").data) 2 (-1) 0 = 1 :=
  ⟨c9_edit_point_stuck_at_zero (("><ab").data) 0 1 0 (by decide), by decide⟩

theorem startsWithOpen_cons (r : List Char) :
    startsWithOpen ('<' :: '!' :: '-' :: '-' :: r) = true := rfl

theorem revStartsWithClose_cons (r : List Char) :
    revStartsWithClose ('>' :: '-' :: '-' :: r) = true := rfl

/-- C7: on the document `"<!-- hello -->"` with the whole string selected
(and the caret at its end), `toggleComment` rewrites the content to
`"hello"` and moves the caret left by exactly 5, the length of the removed
leading `"<!-- "` marker. -/
theorem c7_remove_comment_scenario :
    (toggleComment gtNone ⟨("<!-- hello -->").data, 0, 14, 14, ("html")⟩).1.content
        = ("hello").data ∧
    (toggleComment gtNone ⟨("<!-- hello -->").data, 0, 14, 14, ("html")⟩).1.caret = 14 - 5 ∧
    (toggleComment gtNone ⟨("<!-- hello -->").data, 0, 14, 14, ("html")⟩).2 = true := by
  decide

/-- C10: for every editor state whose syntax is not `html`, `xml` or
`xhtml`, `toggleComment` leaves the state (document, selection, caret)
completely unchanged: the `switch` falls through without reaching
`toggleHTMLComment`, so no replace, selection or caret call happens. -/
theorem c10_toggle_comment_non_markup_noop (gt : GetTags) (st : EditorState)
    (h1 : st.lang ≠ ("html" : String)) (h2 : st.lang ≠ ("xml" : String))
    (h3 : st.lang ≠ ("xhtml" : String)) :
    toggleComment gt st = (st, false) := by
  have hno : ¬(st.lang = ("html" : String) ∨ st.lang = ("xml" : String) ∨
      st.lang = ("xhtml" : String)) := by
    rintro (h | h | h)
    · exact h1 h
    · exact h2 h
    · exact h3 h
  unfold toggleComment
  rw [if_neg hno]

/-- Witness for C10: a `css` editor state is returned untouched. -/
theorem c10_toggle_comment_non_markup_noop_witness :
    toggleComment gtNone ⟨("x").data, 0, 1, 0, ("css")⟩
      = (⟨("x").data, 0, 1, 0, ("css")⟩, false) :=
  c10_toggle_comment_non_markup_noop gtNone ⟨("x").data, 0, 1, 0, ("css")⟩
    (by decide) (by decide) (by decide)

/-- C3: on a non-empty range that does not start with `<!--` and for which
the enclosing-comment test fails, `toggleHTMLComment` takes the insertion
branch: the new content is the selected text with all already-present
comment markers stripped (by the global `<!--`-plus-space / space-plus-`-->`
replace), wrapped in `"<!-- "` and `" -->"`, and the caret moves right by
exactly 5. -/
theorem c3_insertion_wraps_and_shifts_caret (content : List Char) (rs re : Nat) (caret : Int)
    (_hne : rs < re)
    (h1 : startsWithOpen (content.drop rs) = false)
    (h2 : ¬(findCommentStart content rs < (rs : Int) ∧
      (re : Int) < findCommentEndOf content rs)) :
    resolveToggle content rs re caret =
      (wrapOpen ++ stripCommentMarkers (jsSubstringN content rs re) ++ wrapClose,
        rs, re, caret + 5) := by
  unfold resolveToggle
  rw [if_neg (by simp [h1]), if_neg h2]
  rfl

/-- Witness for C3 on the document `"ab"` fully selected with caret 3. -/
theorem c3_insertion_wraps_and_shifts_caret_witness :
    (0 : Nat) < 2 ∧ startsWithOpen (((("ab").data)).drop 0) = false ∧
    resolveToggle (("ab").data) 0 2 3 =
      (wrapOpen ++ stripCommentMarkers (jsSubstringN (("ab").data) 0 2) ++ wrapClose, 0, 2, 8) :=
  ⟨by decide, by decide,
    c3_insertion_wraps_and_shifts_caret (("ab").data) 0 2 3 (by decide) (by decide) (by decide)⟩

/-- C4: when the non-empty range does not start with `<!--`, the backward
scan finds a comment-open marker at `cs` and the forward scan a matching
close marker ending at `ce`, and the comment span strictly contains the
range (`cs < rs` and `re < ce`), then `toggleHTMLComment` widens the target
range to the full comment `[cs, ce)` and performs comment removal there
(not insertion), shifting the caret left by the removed prefix length. -/
theorem c4_widened_removal (content : List Char) (rs re : Nat) (caret : Int) (cs ce : Int)
    (h1 : startsWithOpen (content.drop rs) = false)
    (hcs : findCommentStart content rs = cs)
    (hce : findCommentEndOf content rs = ce)
    (h2 : cs < (rs : Int)) (h3 : (re : Int) < ce) :
    resolveToggle content rs re caret =
      ((removeCommentText (jsSubstringN content cs.toNat ce.toNat)).1, cs.toNat, ce.toNat,
        caret - ((removeCommentText (jsSubstringN content cs.toNat ce.toNat)).2 : Int)) := by
  unfold resolveToggle
  rw [if_neg (by simp [h1]), if_pos (by rw [hcs, hce]; exact ⟨h2, h3⟩), hcs, hce]

/-- Witness for C4: in `"<!-- <b> -->"` with the inner `"<b>"` selected,
the range is widened to the whole comment `[0, 12)` and removal yields
`"<b>"`. -/
theorem c4_widened_removal_witness :
    startsWithOpen (((("<!-- <b> -->").data)).drop 5) = false ∧
    findCommentStart (("<!-- <b> -->").data) 5 = 0 ∧
    findCommentEndOf (("<!-- <b> -->").data) 5 = 12 ∧
    resolveToggle (("<!-- <b> -->").data) 5 8 5 =
      ((removeCommentText (jsSubstringN (("<!-- <b> -->").data) 0 12)).1, 0, 12,
        5 - ((removeCommentText (jsSubstringN (("<!-- <b> -->").data) 0 12)).2 : Int)) :=
  ⟨by decide, by decide, by decide,
    c4_widened_removal (("<!-- <b> -->").data) 5 8 5 0 12
      (by decide) (by decide) (by decide) (by decide) (by decide)⟩

/-- C8: the action registered under the public name `mergeLines` is the
`toggleComment` function, and no registered name maps to the `mergeLines`
function, so the line-merging operation is unreachable through the action
registry. -/
theorem c8_merge_lines_registered_as_toggle :
    List.lookup ("mergeLines") registeredActions = some ActionTag.toggleComment ∧
    registeredActions.all (fun p => !(p.2 == ActionTag.mergeLines)) = true := by
  decide

theorem removeOpenStep_wrapped (x : List Char) :
    removeOpenStep ('<' :: '!' :: '-' :: '-' :: ' ' :: x)
      = (x.dropWhile jsSpace, 5 + (x.takeWhile jsSpace).length) := by
  have hsp : jsSpace ' ' = true := by decide
  unfold removeOpenStep
  rw [if_pos (startsWithOpen_cons _)]
  simp [List.dropWhile_cons_of_pos, List.takeWhile_cons_of_pos, hsp]
  omega

theorem removeComment_of_wrapped (t : List Char) :
    (removeCommentText (wrapOpen ++ t ++ wrapClose)).1 = jsTrim t := by
  have hshape : wrapOpen ++ t ++ wrapClose
      = '<' :: '!' :: '-' :: '-' :: ' ' :: (t ++ wrapClose) := by
    simp [wrapOpen, wrapClose]
  have hsp : jsSpace ' ' = true := by decide
  rw [hshape]
  unfold removeCommentText
  rw [removeOpenStep_wrapped]
  rw [List.dropWhile_append]
  by_cases hall : ((t.dropWhile jsSpace).isEmpty : Bool) = true
  · rw [if_pos hall]
    have ht : t.dropWhile jsSpace = [] := by
      cases hnil : t.dropWhile jsSpace with
      | nil => rfl
      | cons a l => rw [hnil] at hall; simp [List.isEmpty] at hall
    have hcl : wrapClose.dropWhile jsSpace = '-' :: '-' :: '>' :: [] := by decide
    rw [hcl]
    have hstep : removeCloseStep ('-' :: '-' :: '>' :: []) = [] := by decide
    rw [hstep]
    simp [jsTrim, ht]
  · rw [if_neg hall]
    unfold removeCloseStep
    have hrev : (t.dropWhile jsSpace ++ wrapClose).reverse
        = '>' :: '-' :: '-' :: ' ' :: (t.dropWhile jsSpace).reverse := by
      simp [wrapClose]
    rw [hrev, if_pos (revStartsWithClose_cons _)]
    simp only [List.drop_succ_cons, List.drop_zero, List.dropWhile_cons_of_pos hsp]
    rfl

/-- C2 counterexample: on the span `" a"` — which contains no comment
markers, so the claim demands that toggling twice restore `" a"` exactly —
insertion produces `"<!--  a -->"` (caret 7) and the subsequent removal on
that comment yields `"a"`: the leading space is lost, refuting the claim at
this explicit input. -/
theorem c2_counterexample :
    (toggleComment gtNone ⟨(" a").data, 0, 2, 2, ("html")⟩).1.content
        = ("<!--  a -->").data ∧
    (toggleComment gtNone ⟨(" a").data, 0, 2, 2, ("html")⟩).1.caret = 7 ∧
    (toggleComment gtNone ⟨("<!--  a -->").data, 0, 11, 7, ("html")⟩).1.content = ("a").data ∧
    stripCommentMarkers ((" a").data) = (" a").data ∧
    ("a").data ≠ (" a").data := by decide

/-- C2 (amended): for every span text `s` not already comment-wrapped,
comment insertion (markers stripped, then wrapped in `<!-- ` and ` -->`)
followed by comment removal (the two anchored replaces of `removeComment`)
yields the marker-stripped text with its leading and trailing whitespace
additionally trimmed — so the round trip restores the original text minus
internal markers exactly when the stripped text neither starts nor ends
with whitespace. -/
theorem c2_wrap_then_remove_trims (s : List Char) :
    (removeCommentText (wrapComment s)).1 = jsTrim (stripCommentMarkers s) := by
  unfold wrapComment
  exact removeComment_of_wrapped (stripCommentMarkers s)

theorem normNewlines_no_newline : ∀ l : List Char,
    l.all (fun c => !isNewlineChar c) = true → normNewlines l = l
  | [], _ => rfl
  | c :: [], h => by
    simp only [List.all_cons, List.all_nil, Bool.and_true, Bool.not_eq_true'] at h
    have hc : ¬(c = '\r') := by
      intro hcr
      rw [hcr] at h
      simp [isNewlineChar] at h
    simp [normNewlines, hc]
  | c :: d :: rest, h => by
    simp only [List.all_cons, Bool.and_eq_true, Bool.not_eq_true'] at h
    obtain ⟨hc, hd, hrest⟩ := h
    have hcr : ¬(c = '\r') := by
      intro hcr; rw [hcr] at hc; simp [isNewlineChar] at hc
    simp only [normNewlines]
    rw [if_neg hcr]
    congr 1
    exact normNewlines_no_newline (d :: rest) (by
      simp only [List.all_cons, Bool.and_eq_true, Bool.not_eq_true']
      exact ⟨hd, hrest⟩)

theorem splitLinesSimple_no_newline : ∀ l : List Char,
    l.all (fun c => !isNewlineChar c) = true → splitLinesSimple l = l :: []
  | [], _ => rfl
  | c :: rest, h => by
    simp only [List.all_cons, Bool.and_eq_true, Bool.not_eq_true'] at h
    have hc : ¬(c = '\n') := by
      intro hcn; rw [hcn] at h; simp [isNewlineChar] at h
    simp only [splitLinesSimple]
    rw [if_neg hc, splitLinesSimple_no_newline rest h.2]

theorem splitByLines_no_newline (l : List Char)
    (h : l.all (fun c => !isNewlineChar c) = true) : splitByLines l = l :: [] := by
  unfold splitByLines
  rw [normNewlines_no_newline l h, splitLinesSimple_no_newline l h]

theorem collapseFirst_cons₂ (a b : Char) (rest : List Char) :
    collapseFirst (a :: b :: rest)
      = if jsSpace a ∧ jsSpace b then ' ' :: rest.dropWhile jsSpace
        else a :: collapseFirst (b :: rest) := rfl

theorem collapseFirst_first_run : ∀ pre run post : List Char,
    hasWsPair pre = false → lastNotWs pre = true →
    2 ≤ run.length → run.all jsSpace = true → headNotWs post = true →
    collapseFirst (pre ++ run ++ post) = pre ++ ' ' :: post := by
  intro pre
  induction pre with
  | nil =>
    intro run post _ _ hrun2 hrunws hpost
    rcases run with _ | ⟨r1, rt⟩
    · simp at hrun2
    rcases rt with _ | ⟨r2, rr⟩
    · simp at hrun2
    · simp only [List.all_cons, Bool.and_eq_true] at hrunws
      obtain ⟨h1, h2, hrr⟩ := hrunws
      simp only [List.nil_append, List.cons_append]
      rw [collapseFirst_cons₂, if_pos ⟨h1, h2⟩]
      congr 1
      rw [List.dropWhile_append]
      have hrrnil : rr.dropWhile jsSpace = [] :=
        List.dropWhile_eq_nil_iff.mpr (fun x hx => List.all_eq_true.mp hrr x hx)
      rw [hrrnil]
      simp only [List.isEmpty_nil, if_true]
      cases post with
      | nil => rfl
      | cons p ps =>
        have hp : jsSpace p = false := by
          simpa [headNotWs, Bool.not_eq_true'] using hpost
        rw [List.dropWhile_cons_of_neg (by simp [hp])]
  | cons p pr ih =>
    intro run post hpre hlast hrun2 hrunws hpost
    cases pr with
    | nil =>
      have hp : jsSpace p = false := by
        simpa [lastNotWs, Bool.not_eq_true'] using hlast
      rcases run with _ | ⟨r1, rt⟩
      · simp at hrun2
      rcases rt with _ | ⟨r2, rr⟩
      · simp at hrun2
      · simp only [List.cons_append, List.nil_append]
        rw [collapseFirst_cons₂, if_neg (by simp [hp])]
        congr 1
        have := ih (r1 :: r2 :: rr) post rfl rfl hrun2 hrunws hpost
        simpa using this
    | cons q qr =>
      have hpq : ¬(jsSpace p = true ∧ jsSpace q = true) := by
        intro ⟨hp, hq⟩
        have : hasWsPair (p :: q :: qr) = true := by
          simp [hasWsPair, hp, hq]
        rw [hpre] at this
        exact Bool.false_ne_true this
      have hpre2 : hasWsPair (q :: qr) = false := by
        have : hasWsPair (p :: q :: qr)
            = ((jsSpace p && jsSpace q) || hasWsPair (q :: qr)) := rfl
        rw [this] at hpre
        exact (Bool.or_eq_false_iff.mp hpre).2
      have hlast2 : lastNotWs (q :: qr) = true := hlast
      simp only [List.cons_append]
      rw [collapseFirst_cons₂, if_neg hpq]
      congr 1
      have := ih run post hpre2 hlast2 hrun2 hrunws hpost
      simpa using this

/-- C1 counterexample: for the two-line selection `"a  b\n  c  d"` the code
strips the second line's leading whitespace, joins to `"a  bc  d"`, and then
collapses only the FIRST whitespace run (the replace is not global),
yielding `"a bc  d"`; the claim's global collapse would demand
`"a bc d"`. -/
theorem c1_counterexample :
    mergeLines (fun _ _ => none) ⟨("a  b\n  c  d").data, 0, 11, 0, ("html")⟩
      = ⟨("a bc  d").data, 0, 7, 0, ("html")⟩ ∧
    ("a bc  d").data ≠ ("a bc d").data := by decide

/-- C1 (amended): `mergeLines` strips each line's (after the first) leading
whitespace and concatenates with no separator, but collapses only the
first run of 2+ whitespace characters of the concatenation to a single
space; every later run is left unchanged.  Stated for a newline-free
concatenation decomposed as `pre ++ run ++ post` where `run` is the first
whitespace run of length at least 2 (`pre` has no adjacent whitespace pair
and does not end in whitespace, `post` does not start with whitespace):
the result keeps `post` verbatim, whatever whitespace runs it contains. -/
theorem c1_merge_lines_first_run_only (pre run post : List Char)
    (hnl : (pre ++ run ++ post).all (fun c => !isNewlineChar c) = true)
    (hpre : hasWsPair pre = false) (hlast : lastNotWs pre = true)
    (hrun2 : 2 ≤ run.length) (hrunws : run.all jsSpace = true)
    (hpost : headNotWs post = true) :
    mergeLinesText (pre ++ run ++ post) = pre ++ ' ' :: post := by
  unfold mergeLinesText
  rw [splitByLines_no_newline _ hnl]
  simp only [List.map_nil, List.flatten_cons, List.flatten_nil, List.append_nil]
  exact collapseFirst_first_run pre run post hpre hlast hrun2 hrunws hpost

/-- Witness for C1 (amended) on `"a  b  c"`: the first run collapses, the
second run survives in the output `"a b  c"`. -/
theorem c1_merge_lines_first_run_only_witness :
    2 ≤ (' ' :: ' ' :: ([] : List Char)).length ∧
    mergeLinesText (('a' :: []) ++ (' ' :: ' ' :: []) ++ ('b' :: ' ' :: ' ' :: 'c' :: []))
      = ('a' :: []) ++ ' ' :: ('b' :: ' ' :: ' ' :: 'c' :: []) :=
  ⟨by decide,
    c1_merge_lines_first_run_only _ _ _ (by decide) (by decide) (by decide) (by decide)
      (by decide) (by decide)⟩

/-- C6 counterexample: with the cached last match unary (opening tag
present, no closing tag) but an EMPTY selection, `matchPair` in inward mode
does not return NOT_FOUND: the inward guard also requires a non-empty
selection, so the call falls through to a fresh outward match, which here
succeeds, changes the selection to `[0, 5)` and returns `true` — refuting
the claim's "for every document and selection". -/
theorem c6_counterexample :
    matchPair ⟨fun _ _ => some (0, 5), fun _ _ => (-1, -1)⟩ ⟨some ⟨0, 3⟩, none⟩ ("in")
        ⟨("<br/>x").data, 1, 1, 1, ("html")⟩
      = (⟨("<br/>x").data, 0, 5, 1, ("html")⟩, true) ∧
    (⟨("<br/>x").data, 0, 5, 1, ("html")⟩, true)
      ≠ ((⟨("<br/>x").data, 1, 1, 1, ("html")⟩ : EditorState), false) := by
  constructor
  · decide
  · decide

/-- C6 (amended): whenever a prior NON-EMPTY selection exists and the
cached last match has an opening tag but no closing tag (unary tag),
`matchPair` in inward mode returns NOT_FOUND, selects nothing and leaves
the editor state unchanged — a defined no-op, for every document, matcher
and selection satisfying those premises. -/
theorem c6_unary_inward_noop (m : Matcher) (lm : LastMatch) (st : EditorState) (t : TagInfo)
    (hop : lm.opening = some t) (hcl : lm.closing = none)
    (hsel : st.selStart ≠ st.selEnd) :
    matchPair m lm ("in") st = (st, false) := by
  have hdir : (if ("in" : String) = ("" : String) then ("out" : String)
      else jsToLower ("in" : String)) = ("in" : String) := by decide
  simp only [matchPair, hdir, hop, hcl, Option.isSome_some]
  rw [if_pos ⟨trivial, trivial, hsel⟩]

/-- Witness for C6 (amended): a unary cached match with a non-empty
selection is left untouched. -/
theorem c6_unary_inward_noop_witness :
    matchPair ⟨fun _ _ => some (0, 5), fun _ _ => (-1, -1)⟩ ⟨some ⟨0, 3⟩, none⟩ ("in")
        ⟨("<br/>x").data, 1, 4, 1, ("html")⟩
      = (⟨("<br/>x").data, 1, 4, 1, ("html")⟩, false) :=
  c6_unary_inward_noop ⟨fun _ _ => some (0, 5), fun _ _ => (-1, -1)⟩ ⟨some ⟨0, 3⟩, none⟩
    ⟨("<br/>x").data, 1, 4, 1, ("html")⟩ ⟨0, 3⟩ rfl rfl (by decide)
